import Mathlib

/-!
Shallow embedding of the gesture/transform logic of the mermaid-zoom-drag
plugin (src/src/controllers/event-controller.ts), and proofs about it.

TypeScript numbers are modelled as exact rationals (ℚ).  The per-plugin
mutable fields `dx`, `dy`, `scale`, `activeContainer` and
`nativeTouchEventsEnabled` become a `PluginState`; the closure-local
variables of `addMouseEvents` and `addTouchEvents` become a `MouseSession`
and a `TouchSession`.  Each DOM event handler becomes a state-transition
function translated line by line from the source.
-/

namespace MermaidZoomDrag

/-- The plugin fields read and written by the event handlers:
`plugin.dx`, `plugin.dy`, `plugin.scale`, `plugin.activeContainer`
(containers identified by a number) and `plugin.nativeTouchEventsEnabled`. -/
structure PluginState where
  dx : ℚ
  dy : ℚ
  scale : ℚ
  activeContainer : Option Nat
  nativeTouchEventsEnabled : Bool
  deriving DecidableEq, Repr

/-- Modelled from the spec: `moveElement(container, dx, dy, discrete)` of the
diagram controller (src/core, not among the provided sources) "adds (dx,dy) to
the container's stored translation" (§4.3).  The `discrete` flag only marks the
call's origin and does not change the arithmetic, so it is omitted. -/
def moveElement (p : PluginState) (dx dy : ℚ) : PluginState :=
  { p with dx := p.dx + dx, dy := p.dy + dy }

/-- Modelled from the spec: `zoomElement(container, factor, discrete)` of the
diagram controller (src/core, not among the provided sources) "multiplies
stored scale by `factor`, clamped to the same 0.125 floor" (§4.3). -/
def zoomElement (p : PluginState) (factor : ℚ) : PluginState :=
  { p with scale := max (1/8) (p.scale * factor) }

/-- Modelled from the spec: `resetZoomAndMove(container, discrete)` of the
diagram controller (src/core, not among the provided sources) "sets
translation to (0,0) and scale to 1" (§4.3). -/
def resetZoomAndMove (p : PluginState) : PluginState :=
  { p with dx := 0, dy := 0, scale := 1 }

/-- The closure-local state of `addMouseEvents`:
`startX`, `startY`, `initialX`, `initialY`, `isDragging`. -/
structure MouseSession where
  startX : ℚ
  startY : ℚ
  initialX : ℚ
  initialY : ℚ
  isDragging : Bool
  deriving DecidableEq, Repr

/-- The bounding rectangle of the diagram element,
as used by `getBoundingClientRect` in the wheel handler. -/
structure Rect where
  left : ℚ
  top : ℚ
  deriving DecidableEq, Repr

/-- A `WheelEvent`: the fields the wheel handler reads. -/
structure WheelEvent where
  ctrlKey : Bool
  clientX : ℚ
  clientY : ℚ
  deltaY : ℚ
  deriving DecidableEq, Repr

/-- The mouse events handled by `addMouseEvents`.  `down` carries
`event.button` and the client coordinates; `move` carries the client
coordinates; `up` and `leave` carry nothing the handlers read. -/
inductive MouseE where
  | wheel (e : WheelEvent)
  | down (button : Nat) (clientX clientY : ℚ)
  | move (clientX clientY : ℚ)
  | up
  | leave
  deriving DecidableEq, Repr

/-- The five handlers registered by `addMouseEvents` for container `c`,
as one transition on the plugin state paired with the closure-local session:

* wheel: if `!event.ctrlKey` return; set the active container; compute
  `offsetX/Y = client − rect corner`; `scale += deltaY * -0.001` then
  `scale = max(0.125, scale)`; `dx += offsetX * (1 - scale/prevScale)`,
  same for `dy`.
* mousedown: if `event.button !== 0` return; set the active container;
  `isDragging = true`; record the start point and the current `dx`/`dy`.
* mousemove: if `!isDragging` return; set the active container;
  `dx = initialX + (clientX - startX)`, `dy = initialY + (clientY - startY)`.
* mouseup / mouseleave: set the active container; clear `isDragging`. -/
def mouseHandle (c : Nat) (rect : Rect) (st : PluginState × MouseSession) :
    MouseE → PluginState × MouseSession
  | .wheel e =>
      if !e.ctrlKey then st
      else
        let p := st.1
        let offsetX := e.clientX - rect.left
        let offsetY := e.clientY - rect.top
        let prevScale := p.scale
        let newScale := max (1/8) (p.scale + e.deltaY * (-1/1000))
        let ddx := offsetX * (1 - newScale / prevScale)
        let ddy := offsetY * (1 - newScale / prevScale)
        ({ p with activeContainer := some c,
                  scale := newScale,
                  dx := p.dx + ddx,
                  dy := p.dy + ddy }, st.2)
  | .down button clientX clientY =>
      if button ≠ 0 then st
      else
        ({ st.1 with activeContainer := some c },
         { startX := clientX, startY := clientY,
           initialX := st.1.dx, initialY := st.1.dy, isDragging := true })
  | .move clientX clientY =>
      if !st.2.isDragging then st
      else
        ({ st.1 with activeContainer := some c,
                     dx := st.2.initialX + (clientX - st.2.startX),
                     dy := st.2.initialY + (clientY - st.2.startY) }, st.2)
  | .up => ({ st.1 with activeContainer := some c },
            { st.2 with isDragging := false })
  | .leave => ({ st.1 with activeContainer := some c },
               { st.2 with isDragging := false })

/-- One touch point: the `clientX`/`clientY` fields the handlers read. -/
structure Touch where
  clientX : ℚ
  clientY : ℚ
  deriving DecidableEq, Repr

/-- The closure-local state of `addTouchEvents`:
`startX`, `startY`, `initialDistance`, `isDragging`, `isPinching`. -/
structure TouchSession where
  startX : ℚ
  startY : ℚ
  initialDistance : ℚ
  isDragging : Bool
  isPinching : Bool
  deriving DecidableEq, Repr

/-- The square of the source's `calculateDistance` (which returns the
Euclidean distance `Math.sqrt(dx*dx + dy*dy)` between the first two
touches).  The square root of a rational is irrational in general, so the
touch handlers below are parameterised by the distance function `dist`;
every theorem about them holds for an arbitrary `dist`, in particular for
the true Euclidean one.  This computable square is used to instantiate
`dist` in concrete runs. -/
def calculateDistanceSq (t1 t2 : Touch) : ℚ :=
  let dx := t2.clientX - t1.clientX
  let dy := t2.clientY - t1.clientY
  dx * dx + dy * dy

/-- The `touchstart` handler (closure `touchStart` in `addTouchEvents`):
if `nativeTouchEventsEnabled` return; set the active container; if the
target is inside the button-panel selector return; with one touch set
`isDragging` and record the start point; with two touches set `isPinching`
and record the initial distance.  `dist` stands for `calculateDistance`. -/
def touchStart (dist : Touch → Touch → ℚ) (c : Nat)
    (st : PluginState × TouchSession) (touches : List Touch)
    (onButtonPanel : Bool) : PluginState × TouchSession :=
  if st.1.nativeTouchEventsEnabled then st
  else
    let p := { st.1 with activeContainer := some c }
    if onButtonPanel then (p, st.2)
    else
      match touches with
      | [t] => (p, { st.2 with isDragging := true,
                               startX := t.clientX, startY := t.clientY })
      | [t1, t2] => (p, { st.2 with isPinching := true,
                                    initialDistance := dist t1 t2 })
      | _ => (p, st.2)

/-- The `touchmove` handler (closure `touchMove` in `addTouchEvents`):
if `nativeTouchEventsEnabled` return; set the active container; if the
diagram element is not found (`elementFound = false`) return; if dragging
with one touch, forward the delta from the recorded start point to
`moveElement` and reset the start point to the current position; else if
pinching with two touches, forward `currentDistance / initialDistance` to
`zoomElement` and store the current distance. -/
def touchMove (dist : Touch → Touch → ℚ) (c : Nat) (elementFound : Bool)
    (st : PluginState × TouchSession) (touches : List Touch) :
    PluginState × TouchSession :=
  if st.1.nativeTouchEventsEnabled then st
  else
    let p := { st.1 with activeContainer := some c }
    if !elementFound then (p, st.2)
    else
      match touches with
      | [t] =>
          if st.2.isDragging then
            (moveElement p (t.clientX - st.2.startX) (t.clientY - st.2.startY),
             { st.2 with startX := t.clientX, startY := t.clientY })
          else (p, st.2)
      | [t1, t2] =>
          if st.2.isPinching then
            (zoomElement p (dist t1 t2 / st.2.initialDistance),
             { st.2 with initialDistance := dist t1 t2 })
          else (p, st.2)
      | _ => (p, st.2)

/-- The `touchend` handler (closure `touchEnd` in `addTouchEvents`):
if `nativeTouchEventsEnabled` return; set the active container; if the
target is inside the button-panel selector return; clear both flags. -/
def touchEnd (c : Nat) (st : PluginState × TouchSession)
    (onButtonPanel : Bool) : PluginState × TouchSession :=
  if st.1.nativeTouchEventsEnabled then st
  else
    let p := { st.1 with activeContainer := some c }
    if onButtonPanel then (p, st.2)
    else (p, { st.2 with isDragging := false, isPinching := false })

/-- The `scroll` handler (closure `scroll` in `addTouchEvents`): if
`nativeTouchEventsEnabled` return; set the active container; prevent the
default (no state beyond the active container changes). -/
def scrollHandle (c : Nat) (p : PluginState) : PluginState :=
  if p.nativeTouchEventsEnabled then p
  else { p with activeContainer := some c }

/-- The key list `KEYS` of `addKeyboardEvents`. -/
def KEYS : List String :=
  ["ArrowUp", "ArrowDown", "ArrowLeft", "ArrowRight", "=", "+", "-", "0"]

/-- The `keydown` handler returned by `addKeyboardEvents` for container `c`:
if the key is not in `KEYS` return; set the active container; arrows call
`moveElement` with (0,50), (0,-50), (50,0), (-50,0); then, only with
`ctrlKey`, `=`/`+` call `zoomElement` with 1.1, `-` with 0.9, and `0` calls
`resetZoomAndMove`. -/
def keyHandler (c : Nat) (key : String) (ctrlKey : Bool)
    (p : PluginState) : PluginState :=
  if !KEYS.contains key then p
  else
    let p1 := { p with activeContainer := some c }
    let p2 :=
      if key = "ArrowUp" then moveElement p1 0 50
      else if key = "ArrowDown" then moveElement p1 0 (-50)
      else if key = "ArrowLeft" then moveElement p1 50 0
      else if key = "ArrowRight" then moveElement p1 (-50) 0
      else p1
    if ctrlKey then
      if key = "=" ∨ key = "+" then zoomElement p2 (11/10)
      else if key = "-" then zoomElement p2 (9/10)
      else if key = "0" then resetZoomAndMove p2
      else p2
    else p2

/-- The `focusin` handler of `addFocusEvents`: when `automaticFolding` is
set, remove the `folded` class of the container (here a `Bool` paired with
the plugin state); nothing else changes. -/
def focusinHandle (automaticFolding : Bool) (st : PluginState × Bool) :
    PluginState × Bool :=
  (st.1, if automaticFolding then false else st.2)

/-- The `focusout` handler of `addFocusEvents`: when `automaticFolding` is
set, add the `folded` class of the container; nothing else changes. -/
def focusoutHandle (automaticFolding : Bool) (st : PluginState × Bool) :
    PluginState × Bool :=
  (st.1, if automaticFolding then true else st.2)

/-- The diagram element as far as listener binding is concerned: its
`classList`, which `addMouseEvents` checks for the `events-bound` marker. -/
structure DomElement where
  classList : List String
  deriving DecidableEq, Repr

/-- The listeners registered through `plugin.view.registerDomEvent`,
recorded by event name in registration order. -/
structure Registry where
  listeners : List String
  deriving DecidableEq, Repr

/-- The binding part of `addMouseEvents`: if the diagram element's class
list contains `events-bound`, return; otherwise add the marker class and
register the five mouse listeners. -/
def addMouseEvents (el : DomElement) (reg : Registry) : DomElement × Registry :=
  if el.classList.contains "events-bound" then (el, reg)
  else
    (⟨el.classList ++ ["events-bound"]⟩,
     ⟨reg.listeners ++ ["wheel", "mousedown", "mousemove", "mouseup", "mouseleave"]⟩)

/-- The binding part of `addTouchEvents`: register the four touch-path
listeners.  The source has no `events-bound`-style guard here. -/
def addTouchEvents (reg : Registry) : Registry :=
  ⟨reg.listeners ++ ["touchstart", "touchmove", "touchend", "scroll"]⟩

/-- The three kinds of zoom operation reaching the stored scale: a wheel
event with ctrl held (the scale update of the wheel handler), a pinch step
(the touch-move pinch branch forwards its factor to `zoomElement`), and the
keyboard zoom-in/out (`zoomElement` with 1.1 or 0.9). -/
inductive ZoomOp where
  | wheel (rect : Rect) (clientX clientY deltaY : ℚ)
  | pinch (factor : ℚ)
  | kbIn
  | kbOut
  deriving Repr

/-- Applying one zoom operation to the plugin state.  The wheel case runs
the wheel handler (with `ctrlKey` set, on a throwaway mouse session, which
the wheel handler never reads or writes). -/
def applyZoomOp (p : PluginState) : ZoomOp → PluginState
  | .wheel rect x y d =>
      (mouseHandle 0 rect (p, ⟨0, 0, 0, 0, false⟩) (.wheel ⟨true, x, y, d⟩)).1
  | .pinch f => zoomElement p f
  | .kbIn => zoomElement p (11/10)
  | .kbOut => zoomElement p (9/10)

/-- The consecutive per-frame deltas of a coordinate sequence, relative to
a moving baseline that is reset to the current value after each frame —
the quantities the touch-move drag branch forwards to `moveElement`. -/
def frameDeltas (start : ℚ) : List ℚ → List ℚ
  | [] => []
  | x :: xs => (x - start) :: frameDeltas x xs

/-- The scale action of one keyboard zoom-out step
(`zoomElement` with factor 0.9). -/
def zoomOutScaleStep (s : ℚ) : ℚ := max (1/8) (s * (9/10))

/-! ## Helper lemmas -/

theorem applyZoomOp_scale_ge (p : PluginState) (op : ZoomOp) :
    1/8 ≤ (applyZoomOp p op).scale := by
  cases op <;> simp [applyZoomOp, zoomElement, mouseHandle]

theorem kbOut_scale (p : PluginState) :
    (applyZoomOp p ZoomOp.kbOut).scale = zoomOutScaleStep p.scale := rfl

theorem kbOut_iter_scale (n : ℕ) :
    ∀ p : PluginState,
      ((fun q => applyZoomOp q ZoomOp.kbOut)^[n] p).scale
        = zoomOutScaleStep^[n] p.scale := by
  induction n with
  | zero => intro p; rfl
  | succ n ih =>
      intro p
      rw [Function.iterate_succ_apply', Function.iterate_succ_apply',
        ← ih p]
      rfl

theorem zoomOutScaleStep_iter_le (n : ℕ) :
    ∀ s : ℚ, zoomOutScaleStep^[n] s ≤ max (1/8) ((9/10)^n * s) := by
  induction n with
  | zero =>
      intro s
      simp
  | succ n ih =>
      intro s
      rw [Function.iterate_succ_apply']
      show max (1/8) (zoomOutScaleStep^[n] s * (9/10)) ≤ max (1/8) ((9/10)^(n+1) * s)
      apply max_le (le_max_left _ _)
      have h1 : zoomOutScaleStep^[n] s * (9/10) ≤ max (1/8) ((9/10)^n * s) * (9/10) :=
        mul_le_mul_of_nonneg_right (ih s) (by norm_num)
      apply h1.trans
      rcases max_cases (1/8 : ℚ) ((9/10)^n * s) with ⟨he, _⟩ | ⟨he, _⟩
      · rw [he]
        calc (1/8 : ℚ) * (9/10) ≤ 1/8 := by norm_num
          _ ≤ max (1/8) ((9/10)^(n+1) * s) := le_max_left _ _
      · rw [he]
        have hr : (9/10 : ℚ)^n * s * (9/10) = (9/10)^(n+1) * s := by ring
        rw [hr]
        exact le_max_right _ _

theorem zoomOutScaleStep_iter_ge (n : ℕ) (s : ℚ) (hn : 1 ≤ n) :
    1/8 ≤ zoomOutScaleStep^[n] s := by
  obtain ⟨m, rfl⟩ : ∃ m, n = m + 1 := ⟨n - 1, by omega⟩
  rw [Function.iterate_succ_apply']
  exact le_max_left _ _

theorem zoomOutScaleStep_reaches_floor (s : ℚ) (hs : 1/8 ≤ s) :
    ∃ n : ℕ, zoomOutScaleStep^[n] s = 1/8 := by
  have hspos : 0 < s := lt_of_lt_of_le (by norm_num) hs
  obtain ⟨n, hn⟩ :=
    exists_pow_lt_of_lt_one (x := 1/(8*s)) (y := (9/10 : ℚ)) (by positivity) (by norm_num)
  refine ⟨n + 1, le_antisymm ?_ (zoomOutScaleStep_iter_ge _ _ (by omega))⟩
  have h2 : (9/10 : ℚ)^(n+1) ≤ (9/10)^n :=
    pow_le_pow_of_le_one (by norm_num) (by norm_num) (by omega)
  have h3 : (9/10 : ℚ)^(n+1) * s < 1/8 := by
    calc (9/10 : ℚ)^(n+1) * s ≤ (9/10)^n * s :=
          mul_le_mul_of_nonneg_right h2 (le_of_lt hspos)
      _ < (1/(8*s)) * s := mul_lt_mul_of_pos_right hn hspos
      _ = 1/8 := by field_simp; ring
  calc zoomOutScaleStep^[n+1] s ≤ max (1/8) ((9/10)^(n+1) * s) :=
        zoomOutScaleStep_iter_le (n+1) s
    _ = 1/8 := max_eq_left (le_of_lt h3)

theorem mouse_moves_run (c : Nat) (rect : Rect) :
    ∀ (ps : List (ℚ × ℚ)) (q : ℚ × ℚ) (p : PluginState) (sess : MouseSession),
      sess.isDragging = true → ps.getLast? = some q →
      (List.foldl (mouseHandle c rect) (p, sess)
          (ps.map fun z => MouseE.move z.1 z.2)).1.dx
        = sess.initialX + (q.1 - sess.startX)
      ∧ (List.foldl (mouseHandle c rect) (p, sess)
          (ps.map fun z => MouseE.move z.1 z.2)).1.dy
        = sess.initialY + (q.2 - sess.startY) := by
  intro ps
  induction ps with
  | nil => intro q p sess _ hq; simp at hq
  | cons z zs ih =>
      intro q p sess hd hq
      cases zs with
      | nil =>
          simp only [List.getLast?_singleton, Option.some.injEq] at hq
          subst hq
          simp [mouseHandle, hd]
      | cons z2 zs2 =>
          rw [List.getLast?_cons_cons] at hq
          have hstep : mouseHandle c rect (p, sess) (.move z.1 z.2)
              = ({ p with activeContainer := some c,
                          dx := sess.initialX + (z.1 - sess.startX),
                          dy := sess.initialY + (z.2 - sess.startY) }, sess) := by
            simp [mouseHandle, hd]
          simp only [List.map_cons, List.foldl_cons, hstep]
          exact ih q _ sess hd hq

theorem frameDeltas_sum :
    ∀ (xs : List ℚ) (x : ℚ), xs.getLast? = some x →
      ∀ start : ℚ, (frameDeltas start xs).sum = x - start := by
  intro xs
  induction xs with
  | nil => intro x hx; simp at hx
  | cons y ys ih =>
      intro x hx start
      cases ys with
      | nil =>
          simp only [List.getLast?_singleton, Option.some.injEq] at hx
          subst hx
          simp [frameDeltas]
      | cons y2 ys2 =>
          rw [List.getLast?_cons_cons] at hx
          have hrec := ih x hx y
          simp only [frameDeltas, List.sum_cons] at hrec ⊢
          linarith

theorem touch_moves_run (dist : Touch → Touch → ℚ) (c : Nat) :
    ∀ (ps : List Touch) (p : PluginState) (sess : TouchSession),
      p.nativeTouchEventsEnabled = false → sess.isDragging = true →
      (List.foldl (fun st t => touchMove dist c true st [t]) (p, sess) ps).1.dx
        = p.dx + (frameDeltas sess.startX (ps.map Touch.clientX)).sum
      ∧ (List.foldl (fun st t => touchMove dist c true st [t]) (p, sess) ps).1.dy
        = p.dy + (frameDeltas sess.startY (ps.map Touch.clientY)).sum := by
  intro ps
  induction ps with
  | nil => intro p sess _ _; simp [frameDeltas]
  | cons t ts ih =>
      intro p sess hn hd
      have hstep : touchMove dist c true (p, sess) [t]
          = ({ p with activeContainer := some c,
                      dx := p.dx + (t.clientX - sess.startX),
                      dy := p.dy + (t.clientY - sess.startY) },
             { sess with startX := t.clientX, startY := t.clientY }) := by
        simp [touchMove, hn, hd, moveElement]
      simp only [List.foldl_cons, hstep]
      have hrec := ih
        { p with
            activeContainer := some c,
            dx := p.dx + (t.clientX - sess.startX),
            dy := p.dy + (t.clientY - sess.startY) }
        { sess with startX := t.clientX, startY := t.clientY } hn hd
      simp only [List.map_cons, frameDeltas, List.sum_cons]
      rw [hrec.1, hrec.2]
      constructor <;> ring

theorem bind_idem_mouse (el : DomElement) (reg : Registry) :
    addMouseEvents (addMouseEvents el reg).1 (addMouseEvents el reg).2
      = addMouseEvents el reg := by
  by_cases h : el.classList.contains "events-bound" = true
  · have e1 : addMouseEvents el reg = (el, reg) := by
      simp only [addMouseEvents, if_pos h]
    rw [e1]
    exact e1
  · have e1 : addMouseEvents el reg
        = (⟨el.classList ++ ["events-bound"]⟩,
           ⟨reg.listeners ++ ["wheel", "mousedown", "mousemove", "mouseup", "mouseleave"]⟩) := by
      simp only [addMouseEvents, if_neg h]
    rw [e1]
    have h2 : (⟨el.classList ++ ["events-bound"]⟩ : DomElement).classList.contains
        "events-bound" = true := by
      simp
    simp only [addMouseEvents, if_pos h2]

/-! ## Claim theorems -/

/-- C1, counterexample: the spec's end-to-end scenario numbers are wrong.
Starting from `(dx, dy, scale) = (0, 0, 1)`, a ctrl-wheel event with
`deltaY = -100` at cursor offset `(100, 50)` yields `dx = -10` in the code
(which computes `offsetX * (1 - newScale/oldScale) = 100 * (1 - 1.1)`),
not `100 * (1 - 1/1.1) ≈ 9.09` as the scenario claims. -/
theorem wheel_scenario_cex :
    (mouseHandle 0 ⟨0, 0⟩ (⟨0, 0, 1, none, false⟩, ⟨0, 0, 0, 0, false⟩)
        (.wheel ⟨true, 100, 50, -100⟩)).1.dx = -10
    ∧ (100 : ℚ) * (1 - 1 / (11/10)) ≠ -10 := by
  constructor
  · norm_num [mouseHandle]
  · norm_num

/-- C1 (amended): on a ctrl-wheel event the new scale is
`max(0.125, scale + deltaY * -0.001)` and the translation is adjusted by
`dx += offsetX * (1 - newScale/oldScale)` (same for `dy`); in the spec's
end-to-end scenario (start `(0,0,1)`, `deltaY = -100`, offset `(100,50)`)
this gives scale `1.1`, `dx = 100 * (1 - 1.1) = -10` and `dy = -5`,
not the `≈ 9.09 / ≈ 4.55` the spec's scenario states. -/
theorem wheel_zoom_step (c : Nat) (rect : Rect) (e : WheelEvent)
    (p : PluginState) (sess : MouseSession) (h : e.ctrlKey = true) :
    (mouseHandle c rect (p, sess) (.wheel e)).1.scale
        = max (1/8) (p.scale + e.deltaY * (-1/1000))
    ∧ (mouseHandle c rect (p, sess) (.wheel e)).1.dx
        = p.dx + (e.clientX - rect.left)
            * (1 - max (1/8) (p.scale + e.deltaY * (-1/1000)) / p.scale)
    ∧ (mouseHandle c rect (p, sess) (.wheel e)).1.dy
        = p.dy + (e.clientY - rect.top)
            * (1 - max (1/8) (p.scale + e.deltaY * (-1/1000)) / p.scale)
    ∧ (mouseHandle c rect (p, sess) (.wheel e)).2 = sess
    ∧ (mouseHandle 0 ⟨0, 0⟩ (⟨0, 0, 1, none, false⟩, ⟨0, 0, 0, 0, false⟩)
          (.wheel ⟨true, 100, 50, -100⟩)).1
        = ⟨-10, -5, 11/10, some 0, false⟩ := by
  refine ⟨?_, ?_, ?_, ?_, ?_⟩
  · simp [mouseHandle, h]
  · simp [mouseHandle, h]
  · simp [mouseHandle, h]
  · simp [mouseHandle, h]
  · norm_num [mouseHandle]

/-- Witness for C1's theorem at a concrete ctrl-wheel event. -/
theorem wheel_zoom_step_witness :
    (mouseHandle 2 ⟨1, 2⟩ (⟨3, 4, 1, none, false⟩, ⟨0, 0, 0, 0, false⟩)
        (.wheel ⟨true, 7, 8, -100⟩)).1.scale
      = max (1/8) (1 + (-100) * (-1/1000)) :=
  (wheel_zoom_step 2 ⟨1, 2⟩ ⟨true, 7, 8, -100⟩ ⟨3, 4, 1, none, false⟩
    ⟨0, 0, 0, 0, false⟩ rfl).1

/-- C2: for every sequence of zoom operations (wheel, pinch or keyboard)
starting from a scale at or above 0.125, the stored scale never drops below
0.125, and iterating keyboard zoom-out eventually makes it exactly 0.125. -/
theorem scale_floor_invariant :
    (∀ (p : PluginState) (ops : List ZoomOp), 1/8 ≤ p.scale →
        1/8 ≤ (List.foldl applyZoomOp p ops).scale)
    ∧ (∀ p : PluginState, 1/8 ≤ p.scale →
        ∃ n : ℕ, ((fun q => applyZoomOp q ZoomOp.kbOut)^[n] p).scale = 1/8) := by
  constructor
  · intro p ops
    induction ops generalizing p with
    | nil => intro h; exact h
    | cons op ops ih =>
        intro _
        exact ih (applyZoomOp p op) (applyZoomOp_scale_ge p op)
  · intro p hp
    obtain ⟨n, hn⟩ := zoomOutScaleStep_reaches_floor p.scale hp
    exact ⟨n, by rw [kbOut_iter_scale]; exact hn⟩

/-- Witness for C2's theorem at a concrete state and operation list. -/
theorem scale_floor_invariant_witness :
    ((1 : ℚ)/8 ≤ (1 : ℚ))
    ∧ 1/8 ≤ (List.foldl applyZoomOp ⟨0, 0, 1, none, false⟩
        [ZoomOp.pinch (1/100)]).scale :=
  ⟨by norm_num,
   scale_floor_invariant.1 ⟨0, 0, 1, none, false⟩ [ZoomOp.pinch (1/100)] (by norm_num)⟩

/-- C3: after a primary-button mousedown at `(sx, sy)` with baseline
translation `(p.dx, p.dy)`, any nonempty sequence of mousemove events ends
with translation `(p.dx + lastX - sx, p.dy + lastY - sy)`, independent of
the intermediate pointer positions. -/
theorem pointer_drag_absolute (c : Nat) (rect : Rect) (p : PluginState)
    (sess : MouseSession) (sx sy : ℚ) (ps : List (ℚ × ℚ)) (q : ℚ × ℚ)
    (hq : ps.getLast? = some q) :
    (List.foldl (mouseHandle c rect)
        (mouseHandle c rect (p, sess) (.down 0 sx sy))
        (ps.map fun z => MouseE.move z.1 z.2)).1.dx
      = p.dx + (q.1 - sx)
    ∧ (List.foldl (mouseHandle c rect)
        (mouseHandle c rect (p, sess) (.down 0 sx sy))
        (ps.map fun z => MouseE.move z.1 z.2)).1.dy
      = p.dy + (q.2 - sy) := by
  have hstep : mouseHandle c rect (p, sess) (.down 0 sx sy)
      = ({ p with activeContainer := some c },
         ⟨sx, sy, p.dx, p.dy, true⟩) := by
    simp [mouseHandle]
  rw [hstep]
  exact mouse_moves_run c rect ps q _ ⟨sx, sy, p.dx, p.dy, true⟩ rfl hq

/-- Witness for C3's theorem at a concrete drag session. -/
theorem pointer_drag_absolute_witness :
    (([((3 : ℚ), (1 : ℚ)), (7, 2)] : List (ℚ × ℚ)).getLast? = some (7, 2))
    ∧ (List.foldl (mouseHandle 0 ⟨0, 0⟩)
        (mouseHandle 0 ⟨0, 0⟩ ((⟨0, 0, 1, none, false⟩ : PluginState),
          (⟨0, 0, 0, 0, false⟩ : MouseSession)) (.down 0 10 20))
        (([((3 : ℚ), (1 : ℚ)), (7, 2)] : List (ℚ × ℚ)).map
          fun z => MouseE.move z.1 z.2)).1.dx
      = 0 + ((7, 2).1 - 10) :=
  ⟨by decide,
   (pointer_drag_absolute 0 ⟨0, 0⟩ ⟨0, 0, 1, none, false⟩ ⟨0, 0, 0, 0, false⟩
      10 20 [(3, 1), (7, 2)] (7, 2) (by decide)).1⟩

/-- C4, counterexample: under identical raw input the touch-drag
accumulation does NOT differ from the pointer-drag accumulation in exact
arithmetic — with baseline (0,0), session start (0,0) and positions
(3,1), (7,2), both end at translation (7,2). -/
theorem touch_drag_equals_pointer_cex :
    (List.foldl (fun st u => touchMove calculateDistanceSq 1 true st [u])
        ((⟨0, 0, 1, none, false⟩ : PluginState),
         (⟨0, 0, 0, true, false⟩ : TouchSession)) [⟨3, 1⟩, ⟨7, 2⟩]).1.dx
      = (List.foldl (mouseHandle 1 ⟨0, 0⟩)
          ((⟨0, 0, 1, none, false⟩ : PluginState),
           (⟨0, 0, 0, 0, true⟩ : MouseSession))
          [MouseE.move 3 1, MouseE.move 7 2]).1.dx
    ∧ (List.foldl (fun st u => touchMove calculateDistanceSq 1 true st [u])
        ((⟨0, 0, 1, none, false⟩ : PluginState),
         (⟨0, 0, 0, true, false⟩ : TouchSession)) [⟨3, 1⟩, ⟨7, 2⟩]).1.dy
      = (List.foldl (mouseHandle 1 ⟨0, 0⟩)
          ((⟨0, 0, 1, none, false⟩ : PluginState),
           (⟨0, 0, 0, 0, true⟩ : MouseSession))
          [MouseE.move 3 1, MouseE.move 7 2]).1.dy := by
  norm_num [touchMove, mouseHandle, moveElement, List.foldl]

/-- C4 (amended): a single-finger touch drag ends at the baseline
translation plus the sum of consecutive per-frame deltas (the stored start
point being reset each frame); in exact arithmetic that sum telescopes to
`last - start`, so the final translation coincides with the pointer-drag
accumulation — the two differ in mechanism (and under floating-point
rounding), not in exact value. -/
theorem touch_drag_relative (dist : Touch → Touch → ℚ) (c : Nat)
    (p : PluginState) (sess : TouchSession) (ps : List Touch) (t : Touch)
    (hn : p.nativeTouchEventsEnabled = false) (hd : sess.isDragging = true)
    (ht : ps.getLast? = some t) :
    (List.foldl (fun st u => touchMove dist c true st [u]) (p, sess) ps).1.dx
      = p.dx + (frameDeltas sess.startX (ps.map Touch.clientX)).sum
    ∧ (List.foldl (fun st u => touchMove dist c true st [u]) (p, sess) ps).1.dy
      = p.dy + (frameDeltas sess.startY (ps.map Touch.clientY)).sum
    ∧ (frameDeltas sess.startX (ps.map Touch.clientX)).sum
      = t.clientX - sess.startX
    ∧ (frameDeltas sess.startY (ps.map Touch.clientY)).sum
      = t.clientY - sess.startY := by
  have hx : (ps.map Touch.clientX).getLast? = some t.clientX := by
    rw [List.getLast?_map, ht]
    rfl
  have hy : (ps.map Touch.clientY).getLast? = some t.clientY := by
    rw [List.getLast?_map, ht]
    rfl
  have hrun := touch_moves_run dist c ps p sess hn hd
  exact ⟨hrun.1, hrun.2,
    frameDeltas_sum _ _ hx sess.startX, frameDeltas_sum _ _ hy sess.startY⟩

/-- Witness for C4's theorem at a concrete touch-drag session. -/
theorem touch_drag_relative_witness :
    (([⟨3, 1⟩, ⟨7, 2⟩] : List Touch).getLast? = some ⟨7, 2⟩)
    ∧ (List.foldl (fun st u => touchMove calculateDistanceSq 5 true st [u])
        ((⟨0, 0, 1, none, false⟩ : PluginState),
         (⟨0, 0, 0, true, false⟩ : TouchSession)) [⟨3, 1⟩, ⟨7, 2⟩]).1.dx
      = 0 + (frameDeltas 0 (([⟨3, 1⟩, ⟨7, 2⟩] : List Touch).map Touch.clientX)).sum :=
  ⟨by decide,
   (touch_drag_relative calculateDistanceSq 5 ⟨0, 0, 1, none, false⟩
      ⟨0, 0, 0, true, false⟩ [⟨3, 1⟩, ⟨7, 2⟩] ⟨7, 2⟩ rfl rfl (by decide)).1⟩

/-- C5, counterexample: after a one-finger touchstart followed by a
two-finger touchstart (native touch disabled, off the button panel),
`isDragging` and `isPinching` are BOTH true — the flags are not mutually
exclusive. -/
theorem touch_flags_both_true_cex :
    (touchStart calculateDistanceSq 1
        (touchStart calculateDistanceSq 1
          (⟨0, 0, 1, none, false⟩, ⟨0, 0, 0, false, false⟩) [⟨5, 5⟩] false)
        [⟨5, 5⟩, ⟨9, 8⟩] false).2.isDragging = true
    ∧ (touchStart calculateDistanceSq 1
        (touchStart calculateDistanceSq 1
          (⟨0, 0, 1, none, false⟩, ⟨0, 0, 0, false, false⟩) [⟨5, 5⟩] false)
        [⟨5, 5⟩, ⟨9, 8⟩] false).2.isPinching = true := by
  decide

/-- C5 (amended): although both gesture flags can be true simultaneously
(see the counterexample), at most one of the drag and pinch branches acts
on any single touchmove event: every touchmove leaves the scale unchanged
or leaves the translation unchanged. -/
theorem touch_move_branch_exclusive (dist : Touch → Touch → ℚ) (c : Nat)
    (ef : Bool) (st : PluginState × TouchSession) (ts : List Touch) :
    (touchMove dist c ef st ts).1.scale = st.1.scale
    ∨ ((touchMove dist c ef st ts).1.dx = st.1.dx
        ∧ (touchMove dist c ef st ts).1.dy = st.1.dy) := by
  unfold touchMove
  split
  · left; rfl
  · split
    · left; rfl
    · split
      · split
        · left; simp [moveElement]
        · left; rfl
      · split
        · right; simp [zoomElement]
        · left; rfl
      · left; rfl

/-- C6, counterexample: invoking the touch-event binding twice registers
the `touchstart` listener twice, not once. -/
theorem touch_bind_duplicate_cex :
    ((addTouchEvents (addTouchEvents ⟨[]⟩)).listeners.count "touchstart" = 2)
    ∧ (2 : Nat) ≠ 1 := by
  decide

/-- C6 (amended): the mouse-event binding is idempotent — a second
invocation on the same element is a no-op thanks to the `events-bound`
marker — but the touch-event binding has no such guard: a second
invocation registers each of its four listeners a second time. -/
theorem bind_idempotence :
    (∀ (el : DomElement) (reg : Registry),
        addMouseEvents (addMouseEvents el reg).1 (addMouseEvents el reg).2
          = addMouseEvents el reg)
    ∧ (∀ reg : Registry,
        (addTouchEvents (addTouchEvents reg)).listeners.count "touchstart"
          = reg.listeners.count "touchstart" + 2) := by
  constructor
  · exact bind_idem_mouse
  · intro reg
    simp [addTouchEvents, List.count_append]

/-- C7: each arrow key applies a fixed 50-unit nudge — ArrowUp `dy+50`,
ArrowDown `dy-50`, ArrowLeft `dx+50`, ArrowRight `dx-50` (one ArrowRight
press changes `dx` by exactly -50) — and ctrl+`0` resets
`(dx, dy, scale)` to `(0, 0, 1)` regardless of the prior transform. -/
theorem keyboard_nudges_and_reset (c : Nat) (b : Bool) (p : PluginState) :
    (keyHandler c "ArrowUp" b p).dx = p.dx
    ∧ (keyHandler c "ArrowUp" b p).dy = p.dy + 50
    ∧ (keyHandler c "ArrowDown" b p).dx = p.dx
    ∧ (keyHandler c "ArrowDown" b p).dy = p.dy - 50
    ∧ (keyHandler c "ArrowLeft" b p).dx = p.dx + 50
    ∧ (keyHandler c "ArrowLeft" b p).dy = p.dy
    ∧ (keyHandler c "ArrowRight" b p).dx = p.dx - 50
    ∧ (keyHandler c "ArrowRight" b p).dy = p.dy
    ∧ (keyHandler c "0" true p).dx = 0
    ∧ (keyHandler c "0" true p).dy = 0
    ∧ (keyHandler c "0" true p).scale = 1 := by
  cases b <;>
    simp [keyHandler, KEYS, moveElement, zoomElement, resetZoomAndMove] <;>
    exact ⟨by ring, by ring⟩

/-- C8, counterexample: a touchend whose target is inside the
button-panel selector returns early and does NOT clear the gesture flags
(here `isDragging` stays true), so "regardless of the event's target"
fails. -/
theorem touchend_panel_cex :
    ¬ ((touchEnd 1 (⟨0, 0, 1, none, false⟩, ⟨0, 0, 0, true, false⟩)
          true).2.isDragging = false
        ∧ (touchEnd 1 (⟨0, 0, 1, none, false⟩, ⟨0, 0, 0, true, false⟩)
          true).2.isPinching = false) := by
  decide

/-- C8 (amended): for every touchend with native touch events disabled
whose target is NOT inside the button-panel selector, both gesture flags
are false after the handler, regardless of prior gesture state. -/
theorem touchend_clears_flags (c : Nat) (st : PluginState × TouchSession)
    (hn : st.1.nativeTouchEventsEnabled = false) :
    (touchEnd c st false).2.isDragging = false
    ∧ (touchEnd c st false).2.isPinching = false := by
  simp [touchEnd, hn]

/-- Witness for C8's theorem at a concrete touchend. -/
theorem touchend_clears_flags_witness :
    (touchEnd 3 (⟨1, 2, 3, none, false⟩, ⟨4, 5, 6, true, true⟩)
        false).2.isDragging = false
    ∧ (touchEnd 3 (⟨1, 2, 3, none, false⟩, ⟨4, 5, 6, true, true⟩)
        false).2.isPinching = false :=
  touchend_clears_flags 3 (⟨1, 2, 3, none, false⟩, ⟨4, 5, 6, true, true⟩) rfl

/-- C9, counterexample: the focus handlers never write the active-container
reference — after a `focusin` on a container the reference is still `none`,
not that container. -/
theorem focusin_active_cex :
    ((focusinHandle true ((⟨0, 0, 1, none, false⟩ : PluginState),
        true)).1.activeContainer = none)
    ∧ ∀ c : Nat,
        (focusinHandle true ((⟨0, 0, 1, none, false⟩ : PluginState),
          true)).1.activeContainer ≠ some c := by
  constructor
  · rfl
  · intro c h
    simp [focusinHandle] at h

/-- C9 (amended): every mouse, touch, scroll and keyboard handler either
sets the active-container reference to its container or leaves the whole
state unchanged (when its gating check fails: no ctrl for wheel,
non-primary button for mousedown, no drag for mousemove, native touch
enabled, unrecognized key); the focus handlers never modify the plugin
state, in particular never the active-container reference. -/
theorem active_container_marking :
    (∀ (c : Nat) (rect : Rect) (st : PluginState × MouseSession) (ev : MouseE),
        (mouseHandle c rect st ev).1.activeContainer = some c
        ∨ mouseHandle c rect st ev = st)
    ∧ (∀ (dist : Touch → Touch → ℚ) (c : Nat) (st : PluginState × TouchSession)
          (ts : List Touch) (b : Bool),
        (touchStart dist c st ts b).1.activeContainer = some c
        ∨ touchStart dist c st ts b = st)
    ∧ (∀ (dist : Touch → Touch → ℚ) (c : Nat) (ef : Bool)
          (st : PluginState × TouchSession) (ts : List Touch),
        (touchMove dist c ef st ts).1.activeContainer = some c
        ∨ touchMove dist c ef st ts = st)
    ∧ (∀ (c : Nat) (st : PluginState × TouchSession) (b : Bool),
        (touchEnd c st b).1.activeContainer = some c ∨ touchEnd c st b = st)
    ∧ (∀ (c : Nat) (p : PluginState),
        (scrollHandle c p).activeContainer = some c ∨ scrollHandle c p = p)
    ∧ (∀ (c : Nat) (key : String) (ctrl : Bool) (p : PluginState),
        (keyHandler c key ctrl p).activeContainer = some c
        ∨ keyHandler c key ctrl p = p)
    ∧ (∀ (af : Bool) (st : PluginState × Bool), (focusinHandle af st).1 = st.1)
    ∧ (∀ (af : Bool) (st : PluginState × Bool), (focusoutHandle af st).1 = st.1) := by
  refine ⟨?_, ?_, ?_, ?_, ?_, ?_, ?_, ?_⟩
  · intro c rect st ev
    cases ev with
    | wheel e =>
        by_cases h : e.ctrlKey <;> simp [mouseHandle, h]
    | down b x y =>
        by_cases h : b = 0 <;> simp [mouseHandle, h]
    | move x y =>
        by_cases h : st.2.isDragging <;> simp [mouseHandle, h]
    | up => left; rfl
    | leave => left; rfl
  · intro dist c st ts b
    unfold touchStart
    split
    · right; rfl
    · split
      · left; rfl
      · split <;> left <;> rfl
  · intro dist c ef st ts
    unfold touchMove
    split
    · right; rfl
    · split
      · left; rfl
      · split
        · split
          · left; simp [moveElement]
          · left; rfl
        · split
          · left; simp [zoomElement]
          · left; rfl
        · left; rfl
  · intro c st b
    unfold touchEnd
    split
    · right; rfl
    · split <;> left <;> rfl
  · intro c p
    by_cases h : p.nativeTouchEventsEnabled = true
    · right; simp [scrollHandle, h]
    · left; simp [scrollHandle, h]
  · intro c key ctrl p
    by_cases hk : (!KEYS.contains key) = true
    · right
      unfold keyHandler
      rw [if_pos hk]
    · left
      simp only [keyHandler, if_neg hk, moveElement, zoomElement, resetZoomAndMove]
      split_ifs <;> rfl
  · intro af st; rfl
  · intro af st; rfl

/-- C10, counterexample: with starting scale 1 and pinch factors 0.1 then
10, the sequential result is 1.25 (the intermediate scale is clamped to
0.125 before the second factor applies) while the single-shot factor
0.1 * 10 = 1 gives scale 1 — the composition law fails when the floor
clamps the intermediate scale. -/
theorem pinch_clamp_cex :
    (zoomElement (zoomElement ⟨0, 0, 1, none, false⟩ (1/10)) 10).scale = 5/4
    ∧ (zoomElement ⟨0, 0, 1, none, false⟩ ((1/10) * 10)).scale = 1
    ∧ (5/4 : ℚ) ≠ 1 := by
  refine ⟨?_, ?_, by norm_num⟩
  · norm_num [zoomElement]
  · norm_num [zoomElement]

/-- C10 (amended): applying pinch zoom with factors `f1` then `f2` yields
the same final state as one pinch zoom with `f1 * f2`, provided the
intermediate scale `scale * f1` is not below the 0.125 floor. -/
theorem pinch_factor_compose (p : PluginState) (f1 f2 : ℚ)
    (h : 1/8 ≤ p.scale * f1) :
    zoomElement (zoomElement p f1) f2 = zoomElement p (f1 * f2) := by
  have hs : zoomElement p f1 = { p with scale := p.scale * f1 } := by
    unfold zoomElement
    rw [max_eq_right h]
  rw [hs]
  unfold zoomElement
  rw [mul_assoc]

/-- Witness for C10's theorem at concrete factors. -/
theorem pinch_factor_compose_witness :
    ((1 : ℚ)/8 ≤ 1 * 2)
    ∧ zoomElement (zoomElement ⟨0, 0, 1, none, false⟩ 2) 3
        = zoomElement ⟨0, 0, 1, none, false⟩ (2 * 3) :=
  ⟨by norm_num, pinch_factor_compose ⟨0, 0, 1, none, false⟩ 2 3 (by norm_num)⟩

end MermaidZoomDrag
